import Mathlib

/-!
# Verification of the `material2` migration tool and component-state claims

This file gives a shallow embedding, in Lean 4, of the parts of the
`material2` repository that the specification talks about:

* the version-migration update tool (`src/cdk/schematics/update-tool/index.ts`,
  `UpdateProject.migrate`) together with the devkit schematic runner
  (`src/cdk/schematics/ng-update/devkit-migration-rule.ts`);
* the version-keyed upgrade-data tables
  (`src/cdk/schematics/ng-update/upgrade-data.ts`,
  `src/cdk/schematics/ng-update/data/class-names.ts`);
* the `ElementSelectorsRule` migration rule
  (`src/cdk/schematics/ng-update/upgrade-rules/index.ts`);
* the `MatProgressBar` components (material and material-experimental MDC);
* `TestbedHarnessEnvironment.forceStabilize`;
* `OverlayMouseClickDispatcher._clickListener`.

The embedding is executable: JavaScript numbers are modelled as rationals
(with `Option ℚ` where `NaN` can arise), JavaScript `Set<string>` as a
duplicate-free `List String`, and thrown exceptions as `Option`/error
results.  Definitions are translated from the TypeScript source; where a
definition had to be reconstructed because its source file is not part of
the excerpt, its doc comment says so explicitly.
-/

/-! ## The update tool (`src/cdk/schematics/update-tool/index.ts`)

`UpdateProject.migrate` walks the TypeScript source files of a project,
the resolved templates and stylesheets found by the component resource
collector, and a caller-supplied list of additional stylesheet paths.
Every visit is guarded by the `_analyzedFiles` set of resolved paths.
We model the walk as a single list-processing function over
`(resolvedPath, inline)` pairs, and `migrate` as its composition over the
four phases.
-/

/-- A single visit performed by `UpdateProject.migrate`: the resolved path of
the visited file/template/stylesheet and whether the resource was inline. -/
structure VisitEvent where
  path : String
  inline : Bool
deriving DecidableEq, Repr

/-- `Set.add` of JavaScript on a duplicate-free list model: adds the string
if it is not yet a member. -/
def setAdd (analyzed : List String) (path : String) : List String :=
  if path ∈ analyzed then analyzed else analyzed ++ [path]

/-- One guarded visiting pass of `UpdateProject.migrate`: for each
`(resolvedPath, inline)` item, the item is visited when it is inline or its
resolved path is not in `_analyzedFiles`; immediately after a visit the
resolved path is added to `_analyzedFiles`.  This is the common shape of the
four `forEach` loops in `migrate` (source files and additional stylesheets
use `inline = false`, for which the guard degenerates to the plain
membership test of the source). -/
def processItems : List (String × Bool) → List String → List String × List VisitEvent
  | [], analyzed => (analyzed, [])
  | (path, inl) :: rest, analyzed =>
    if inl = true ∨ path ∉ analyzed then
      let res := processItems rest (setAdd analyzed path)
      (res.1, ⟨path, inl⟩ :: res.2)
    else
      processItems rest analyzed

/-- A failure reported by a migration: file path, message, and optional
`(line, character)` position (`MigrationFailure` in
`update-tool/migration.ts`, as consumed by `migrate`). -/
structure MigrationFailure where
  filePath : String
  message : String
  position : Option (Nat × Nat)
deriving DecidableEq, Repr

/-- The warning `migrate` logs for one failure: the resolved path with
backslashes replaced by forward slashes, the optional `@line:character`
suffix (one-based), a separator, and the message. -/
def formatFailureWarning (resolve : String → String) (f : MigrationFailure) : String :=
  let posixFilePath := String.map (fun c => if c = '\\' then '/' else c) (resolve f.filePath)
  let lineAndCharacter :=
    match f.position with
    | some (line, character) => "@" ++ toString (line + 1) ++ ":" ++ toString (character + 1)
    | none => ""
  posixFilePath ++ lineAndCharacter ++ " - " ++ f.message

/-- A resolved component resource (template or stylesheet) as produced by
the `ComponentResourceCollector`: its file path, whether it was inline, its
text content and its start offset in the containing file. -/
structure ResolvedResource where
  filePath : String
  inline : Bool
  content : String
  start : Nat
deriving DecidableEq, Repr

/-- The inputs `migrate` walks for one project: the non-declaration,
non-external source files of the TypeScript program, and the templates and
stylesheets the resource collector resolves from them. -/
structure ProjectInputs where
  sourceFiles : List String
  resolvedTemplates : List ResolvedResource
  resolvedStylesheets : List ResolvedResource
deriving DecidableEq, Repr

/-- The items of the first three phases of `migrate` (source files, resolved
templates, resolved stylesheets), each as a `(resolvedPath, inline)` pair.
Source files are never inline. -/
def migratePhaseItems (resolve : String → String) (inputs : ProjectInputs) :
    List (String × Bool) :=
  (inputs.sourceFiles.map fun f => (resolve f, false))
    ++ (inputs.resolvedTemplates.map fun t => (resolve t.filePath, t.inline))
    ++ (inputs.resolvedStylesheets.map fun s => (resolve s.filePath, s.inline))

/-- Result of one `UpdateProject.migrate` call.  `result = some hasFailures`
models the normal return `{hasFailures}`; `result = none` models the
`TypeError` thrown when `additionalStylesheetPaths` is `undefined` and
`additionalStylesheetPaths.forEach` is dereferenced. -/
structure MigrateRun where
  analyzed : List String
  visits : List VisitEvent
  warnings : List String
  result : Option Bool
deriving DecidableEq, Repr

/-- `UpdateProject.migrate` (`update-tool/index.ts`, lines 43-136).  The
four walking phases thread `_analyzedFiles`; the caller's
`additionalStylesheetPaths` argument is optional (`Option`), and when it is
absent the unconditional `additionalStylesheetPaths.forEach` throws after
the first three phases, so neither `postAnalysis` nor the failure
collection and warning logging runs.  `migrationFailures` lists, per
instantiated migration, the failures that migration has reported by the end
of the walk. -/
def UpdateProject.migrate (resolve : String → String) (inputs : ProjectInputs)
    (migrationFailures : List (List MigrationFailure)) (analyzedFiles : List String)
    (additionalStylesheetPaths : Option (List String)) : MigrateRun :=
  let phase123 := processItems (migratePhaseItems resolve inputs) analyzedFiles
  match additionalStylesheetPaths with
  | none =>
    { analyzed := phase123.1, visits := phase123.2, warnings := [], result := none }
  | some paths =>
    let phase4 := processItems (paths.map fun p => (resolve p, false)) phase123.1
    let failures := migrationFailures.foldl (fun res m => res ++ m) []
    { analyzed := phase4.1,
      visits := phase123.2 ++ phase4.2,
      warnings := failures.map (formatFailureWarning resolve),
      result := some (failures.length != 0) }

/-- One call in a sequence of `migrate` runs that share an
`_analyzedFiles` set (as `createMigrationSchematicRule` does across
tsconfig projects). -/
structure MigrateCall where
  inputs : ProjectInputs
  migrationFailures : List (List MigrationFailure)
  additionalStylesheetPaths : Option (List String)

/-- A sequence of `migrate` runs threading the shared `_analyzedFiles` set,
returning the final set and the concatenated visit trace. -/
def migrateSeq (resolve : String → String) :
    List MigrateCall → List String → List String × List VisitEvent
  | [], analyzed => (analyzed, [])
  | c :: rest, analyzed =>
    let run := UpdateProject.migrate resolve c.inputs c.migrationFailures analyzed
      c.additionalStylesheetPaths
    let tail := migrateSeq resolve rest run.analyzed
    (tail.1, run.visits ++ tail.2)

/-- Number of non-inline visits of resolved path `p` in a visit trace. -/
def countNonInline (p : String) (visits : List VisitEvent) : Nat :=
  visits.countP fun e => e.path = p ∧ e.inline = false

theorem setAdd_mem (analyzed : List String) (path q : String) :
    q ∈ setAdd analyzed path ↔ q ∈ analyzed ∨ q = path := by
  unfold setAdd
  split
  · rename_i hmem
    constructor
    · exact fun h => Or.inl h
    · rintro (h | rfl)
      · exact h
      · exact hmem
  · simp [List.mem_append]

theorem mem_setAdd_self (analyzed : List String) (path : String) :
    path ∈ setAdd analyzed path := by
  rw [setAdd_mem]; exact Or.inr rfl

theorem countNonInline_nil (p : String) : countNonInline p [] = 0 := rfl

theorem countNonInline_cons (p : String) (e : VisitEvent) (v : List VisitEvent) :
    countNonInline p (e :: v)
      = (if e.path = p ∧ e.inline = false then 1 else 0) + countNonInline p v := by
  unfold countNonInline
  rw [List.countP_cons]
  by_cases h : e.path = p ∧ e.inline = false
  · simp [h, Nat.add_comm]
  · simp [h]

theorem countNonInline_append (p : String) (v w : List VisitEvent) :
    countNonInline p (v ++ w) = countNonInline p v + countNonInline p w := by
  unfold countNonInline
  exact List.countP_append _ _ _

/-- `_analyzedFiles` only grows during a pass. -/
theorem processItems_mono (items : List (String × Bool)) (analyzed : List String)
    (p : String) (h : p ∈ analyzed) : p ∈ (processItems items analyzed).1 := by
  induction items generalizing analyzed with
  | nil => simpa [processItems] using h
  | cons item rest ih =>
    obtain ⟨path, inl⟩ := item
    unfold processItems
    split
    · exact ih (setAdd analyzed path) ((setAdd_mem analyzed path p).2 (Or.inl h))
    · exact ih analyzed h

/-- A path already in `_analyzedFiles` is never visited (non-inline) during
a pass. -/
theorem processItems_skip (items : List (String × Bool)) (analyzed : List String)
    (p : String) (h : p ∈ analyzed) :
    countNonInline p (processItems items analyzed).2 = 0 := by
  induction items generalizing analyzed with
  | nil => simp [processItems, countNonInline_nil]
  | cons item rest ih =>
    obtain ⟨path, inl⟩ := item
    unfold processItems
    split
    · rename_i hvisit
      rw [countNonInline_cons]
      have hrest := ih (setAdd analyzed path) ((setAdd_mem analyzed path p).2 (Or.inl h))
      have hhead : ¬((⟨path, inl⟩ : VisitEvent).path = p ∧
          (⟨path, inl⟩ : VisitEvent).inline = false) := by
        rintro ⟨hp, hinl⟩
        simp only at hp hinl
        rcases hvisit with hi | hni
        · rw [hi] at hinl; exact Bool.noConfusion hinl
        · exact hni (hp ▸ h)
      simp [hhead, hrest]
    · exact ih analyzed h

/-- Each resolved path receives at most one non-inline visit during a pass. -/
theorem processItems_le_one (items : List (String × Bool)) (analyzed : List String)
    (p : String) : countNonInline p (processItems items analyzed).2 ≤ 1 := by
  induction items generalizing analyzed with
  | nil => simp [processItems, countNonInline_nil]
  | cons item rest ih =>
    obtain ⟨path, inl⟩ := item
    unfold processItems
    split
    · rw [countNonInline_cons]
      by_cases hcond : path = p ∧ inl = false
      · have hrest := processItems_skip rest (setAdd analyzed path) p
          (hcond.1 ▸ mem_setAdd_self analyzed path)
        rw [hcond.1] at hrest
        simp [hcond, hrest]
      · simp only [hcond]
        simpa [hcond] using ih (setAdd analyzed path)
    · exact ih analyzed

/-- Every non-inline visited path ends up in `_analyzedFiles`. -/
theorem processItems_visited_mem (items : List (String × Bool)) (analyzed : List String) :
    ∀ e ∈ (processItems items analyzed).2, e.inline = false →
      e.path ∈ (processItems items analyzed).1 := by
  induction items generalizing analyzed with
  | nil => simp [processItems]
  | cons item rest ih =>
    obtain ⟨path, inl⟩ := item
    unfold processItems
    split
    · intro e he hinl
      rcases List.mem_cons.1 he with rfl | hmem
      · simp only
        exact processItems_mono rest (setAdd analyzed path) path
          (mem_setAdd_self analyzed path)
      · exact ih (setAdd analyzed path) e hmem hinl
    · exact ih analyzed

/-- Processing a concatenation of item lists is the same as processing them
in sequence while threading `_analyzedFiles`. -/
theorem processItems_append (l₁ l₂ : List (String × Bool)) (analyzed : List String) :
    processItems (l₁ ++ l₂) analyzed
      = ((processItems l₂ (processItems l₁ analyzed).1).1,
         (processItems l₁ analyzed).2 ++ (processItems l₂ (processItems l₁ analyzed).1).2) := by
  induction l₁ generalizing analyzed with
  | nil => simp [processItems]
  | cons item rest ih =>
    obtain ⟨path, inl⟩ := item
    rw [List.cons_append]
    by_cases hvisit : inl = true ∨ path ∉ analyzed
    · simp [processItems, hvisit, ih (setAdd analyzed path)]
    · simp [processItems, hvisit, ih analyzed]

/-- All `(resolvedPath, inline)` items one `migrate` call processes: the
three resource phases followed by the additional stylesheet paths (none of
which are processed when the argument is absent, because the dereference
throws first). -/
def migrateCallItems (resolve : String → String) (c : MigrateCall) :
    List (String × Bool) :=
  migratePhaseItems resolve c.inputs
    ++ (match c.additionalStylesheetPaths with
        | none => []
        | some paths => paths.map fun p => (resolve p, false))

/-- A `migrate` run walks exactly the items of `migrateCallItems`, threading
`_analyzedFiles` through the phases. -/
theorem migrate_eq_processItems (resolve : String → String) (c : MigrateCall)
    (analyzed : List String) :
    (UpdateProject.migrate resolve c.inputs c.migrationFailures analyzed
        c.additionalStylesheetPaths).analyzed
      = (processItems (migrateCallItems resolve c) analyzed).1
    ∧ (UpdateProject.migrate resolve c.inputs c.migrationFailures analyzed
        c.additionalStylesheetPaths).visits
      = (processItems (migrateCallItems resolve c) analyzed).2 := by
  obtain ⟨inputs, migs, add⟩ := c
  cases add with
  | none => simp [UpdateProject.migrate, migrateCallItems]
  | some paths =>
    simp [UpdateProject.migrate, migrateCallItems, processItems_append]

/-- A sequence of `migrate` runs sharing `_analyzedFiles` walks the
concatenation of the calls' items. -/
theorem migrateSeq_eq_processItems (resolve : String → String)
    (calls : List MigrateCall) (analyzed : List String) :
    migrateSeq resolve calls analyzed
      = processItems ((calls.map (migrateCallItems resolve)).flatten) analyzed := by
  induction calls generalizing analyzed with
  | nil => simp [migrateSeq, processItems]
  | cons c rest ih =>
    have hc := migrate_eq_processItems resolve c analyzed
    simp only [migrateSeq, List.map_cons, List.flatten_cons, processItems_append]
    rw [hc.1, hc.2, ih]

/-- C1: over a single `UpdateProject.migrate` run and over any sequence of
runs sharing the same `_analyzedFiles` set, every resolved path receives at
most one non-inline visit; a path already in `_analyzedFiles` is never
visited (non-inline); and every non-inline visited path is in the final
`_analyzedFiles` set.  Inline resources are exempt from the membership
check. -/
theorem migrate_visits_each_path_at_most_once (resolve : String → String)
    (calls : List MigrateCall) (analyzed₀ : List String) (p : String) :
    countNonInline p (migrateSeq resolve calls analyzed₀).2 ≤ 1
    ∧ (p ∈ analyzed₀ → countNonInline p (migrateSeq resolve calls analyzed₀).2 = 0)
    ∧ (∀ e ∈ (migrateSeq resolve calls analyzed₀).2, e.inline = false →
        e.path ∈ (migrateSeq resolve calls analyzed₀).1) := by
  rw [migrateSeq_eq_processItems]
  exact ⟨processItems_le_one _ _ _,
    fun h => processItems_skip _ _ _ h,
    processItems_visited_mem _ _⟩

/-- Witness for C1 at a concrete input: the same source file appears in two
successive runs sharing the analyzed set, a path already analyzed before the
first run, and an inline template sharing a path with its source file. -/
theorem migrate_visits_each_path_at_most_once_witness :
    (countNonInline "/a.ts"
        (migrateSeq id
          [⟨⟨["/a.ts", "/pre.ts"], [⟨"/a.ts", true, "<div>", 3⟩], []⟩, [], some ["/s.css"]⟩,
           ⟨⟨["/a.ts"], [], [⟨"/s.css", false, "body {}", 0⟩]⟩, [], some []⟩]
          ["/pre.ts"]).2 ≤ 1
      ∧ ("/pre.ts" ∈ ["/pre.ts"] → countNonInline "/pre.ts"
          (migrateSeq id
            [⟨⟨["/a.ts", "/pre.ts"], [⟨"/a.ts", true, "<div>", 3⟩], []⟩, [], some ["/s.css"]⟩,
             ⟨⟨["/a.ts"], [], [⟨"/s.css", false, "body {}", 0⟩]⟩, [], some []⟩]
            ["/pre.ts"]).2 = 0)
      ∧ (migrateSeq id
          [⟨⟨["/a.ts", "/pre.ts"], [⟨"/a.ts", true, "<div>", 3⟩], []⟩, [], some ["/s.css"]⟩,
           ⟨⟨["/a.ts"], [], [⟨"/s.css", false, "body {}", 0⟩]⟩, [], some []⟩]
          ["/pre.ts"]).2
        = [⟨"/a.ts", false⟩, ⟨"/a.ts", true⟩, ⟨"/s.css", false⟩]) :=
  ⟨(migrate_visits_each_path_at_most_once id
      [⟨⟨["/a.ts", "/pre.ts"], [⟨"/a.ts", true, "<div>", 3⟩], []⟩, [], some ["/s.css"]⟩,
       ⟨⟨["/a.ts"], [], [⟨"/s.css", false, "body {}", 0⟩]⟩, [], some []⟩]
      ["/pre.ts"] "/a.ts").1,
   (migrate_visits_each_path_at_most_once id
      [⟨⟨["/a.ts", "/pre.ts"], [⟨"/a.ts", true, "<div>", 3⟩], []⟩, [], some ["/s.css"]⟩,
       ⟨⟨["/a.ts"], [], [⟨"/s.css", false, "body {}", 0⟩]⟩, [], some []⟩]
      ["/pre.ts"] "/pre.ts").2.1,
   by decide⟩

/-- `Array.prototype.reduce` with `concat` flattens the per-migration
failure lists. -/
theorem foldl_append_eq_flatten (migs : List (List MigrationFailure)) (acc : List MigrationFailure) :
    migs.foldl (fun res m => res ++ m) acc = acc ++ migs.flatten := by
  induction migs generalizing acc with
  | nil => simp
  | cons m rest ih => simp [List.foldl_cons, ih (acc ++ m)]

/-- C6: on a call that provides the additional stylesheet paths,
`UpdateProject.migrate` runs to completion (returns a result instead of
throwing), logs exactly one warning per failure reported by the
instantiated migrations — the formatted failure messages in order — and
returns `hasFailures = true` iff at least one migration reported at least
one failure. -/
theorem migrate_reports_failures_as_warnings (resolve : String → String)
    (inputs : ProjectInputs) (migrationFailures : List (List MigrationFailure))
    (analyzed : List String) (paths : List String) :
    (UpdateProject.migrate resolve inputs migrationFailures analyzed (some paths)).result.isSome
      = true
    ∧ (UpdateProject.migrate resolve inputs migrationFailures analyzed (some paths)).warnings
      = migrationFailures.flatten.map (formatFailureWarning resolve)
    ∧ (UpdateProject.migrate resolve inputs migrationFailures analyzed (some paths)).warnings.length
      = migrationFailures.flatten.length
    ∧ ((UpdateProject.migrate resolve inputs migrationFailures analyzed (some paths)).result
        = some true
      ↔ ∃ m ∈ migrationFailures, m ≠ []) := by
  refine ⟨rfl, ?_, ?_, ?_⟩
  · simp [UpdateProject.migrate, foldl_append_eq_flatten]
  · simp [UpdateProject.migrate, foldl_append_eq_flatten, Function.comp_def]
  · simp only [UpdateProject.migrate, foldl_append_eq_flatten, List.nil_append,
      Option.some.injEq]
    constructor
    · intro h
      by_contra hall
      push_neg at hall
      have hnil : migrationFailures.flatten = [] := by
        rw [List.flatten_eq_nil_iff]
        intro m hm
        exact hall m hm
      rw [hnil] at h
      simp at h
    · rintro ⟨m, hm, hne⟩
      have : migrationFailures.flatten ≠ [] := by
        intro hnil
        exact hne (List.flatten_eq_nil_iff.mp hnil m hm)
      have hlen : migrationFailures.flatten.length ≠ 0 := by
        intro h0
        exact this (List.length_eq_zero.mp h0)
      rw [List.length_flatten] at hlen
      simpa using hlen

/-- Witness for C6 at a concrete input: two migrations, the second with one
failure; the run completes with `hasFailures = true` and one formatted
warning. -/
theorem migrate_reports_failures_as_warnings_witness :
    (UpdateProject.migrate id ⟨["/a.ts"], [], []⟩
        [[], [⟨"/a.ts", "Found outdated usage", some (4, 1)⟩]] [] (some [])).result.isSome
      = true
    ∧ (UpdateProject.migrate id ⟨["/a.ts"], [], []⟩
        [[], [⟨"/a.ts", "Found outdated usage", some (4, 1)⟩]] [] (some [])).warnings
      = [[], [⟨"/a.ts", "Found outdated usage", some (4, 1)⟩]].flatten.map
          (formatFailureWarning id)
    ∧ (UpdateProject.migrate id ⟨["/a.ts"], [], []⟩
        [[], [⟨"/a.ts", "Found outdated usage", some (4, 1)⟩]] [] (some [])).warnings.length
      = [([] : List MigrationFailure),
         [⟨"/a.ts", "Found outdated usage", some (4, 1)⟩]].flatten.length
    ∧ ((UpdateProject.migrate id ⟨["/a.ts"], [], []⟩
        [[], [⟨"/a.ts", "Found outdated usage", some (4, 1)⟩]] [] (some [])).result
        = some true
      ↔ ∃ m ∈ [[], [⟨"/a.ts", "Found outdated usage", some (4, 1)⟩]],
          m ≠ ([] : List MigrationFailure)) :=
  migrate_reports_failures_as_warnings id ⟨["/a.ts"], [], []⟩
    [[], [⟨"/a.ts", "Found outdated usage", some (4, 1)⟩]] [] []

/-- C10: `migrate` dereferences `additionalStylesheetPaths` unconditionally,
so a call without the argument throws a `TypeError` (modelled as
`result = none`) after the source files, resolved templates and resolved
stylesheets have been visited and before any warning is logged, while every
call passing an array returns normally with the `hasFailures` result. -/
theorem migrate_throws_without_additionalStylesheetPaths (resolve : String → String)
    (inputs : ProjectInputs) (migrationFailures : List (List MigrationFailure))
    (analyzed : List String) :
    (UpdateProject.migrate resolve inputs migrationFailures analyzed none).result = none
    ∧ (UpdateProject.migrate resolve inputs migrationFailures analyzed none).visits
      = (processItems (migratePhaseItems resolve inputs) analyzed).2
    ∧ (UpdateProject.migrate resolve inputs migrationFailures analyzed none).warnings = []
    ∧ ∀ paths : List String,
        (UpdateProject.migrate resolve inputs migrationFailures analyzed
          (some paths)).result.isSome = true :=
  ⟨rfl, rfl, rfl, fun _ => rfl⟩

/-! ## Update recorders and the devkit file system

`devkit-migration-rule.ts` runs `updateProject.migrate(...)`, during which
migrations record edits through per-file update recorders, and then calls
`fileSystem.commitEdits()` once, after `migrate` has returned.
`DevkitFileSystem` (declared in `ng-update/devkit-file-system.ts`, whose
source is not part of the excerpt) buffers recorded edits and applies them
to the tree only when `commitEdits` is called; we model it as a pending
list and an applied list.
-/

/-- An edit recorded in a file's update recorder (the devkit
`UpdateRecorder` operations used by the migration rules). -/
inductive EditRecord
  | remove (start length : Nat)
  | insertLeft (start : Nat) (text : String)
  | insertRight (start : Nat) (text : String)
deriving DecidableEq, Repr

/-- Whether an edit record is one of the two kinds `_replaceSelector`
emits. -/
def EditRecord.isRemoveOrInsertRight : EditRecord → Bool
  | .insertLeft _ _ => false
  | _ => true

/-- Modelled from the spec: the `DevkitFileSystem` used by
`createMigrationSchematicRule` (its source file is not part of the
excerpt).  Per the collect-then-commit design — "record edits without
mutating the AST in place, then commit all edits in one pass" — it keeps
edits recorded by the update recorders pending and applies them to the
tree only on `commitEdits`. -/
structure DevkitFileSystemState where
  pending : List (String × EditRecord)
  applied : List (String × EditRecord)
deriving DecidableEq, Repr

/-- Recording an edit through an update recorder: appended to the pending
list, the applied state untouched. -/
def DevkitFileSystem.recordEdit (fs : DevkitFileSystemState) (file : String)
    (edit : EditRecord) : DevkitFileSystemState :=
  { fs with pending := fs.pending ++ [(file, edit)] }

/-- `DevkitFileSystem.commitEdits`: applies all pending edits to the tree
in one pass and clears them. -/
def DevkitFileSystem.commitEdits (fs : DevkitFileSystemState) : DevkitFileSystemState :=
  { pending := [], applied := fs.applied ++ fs.pending }

/-- The recording effect of one `updateProject.migrate` call on the file
system: the edits all migrations record, in order, each through
`recordEdit`. -/
def migrateRecordAll (edits : List (String × EditRecord))
    (fs : DevkitFileSystemState) : DevkitFileSystemState :=
  edits.foldl (fun fs e => DevkitFileSystem.recordEdit fs e.1 e.2) fs

/-- File-system events of one `runMigrations` call, in program order. -/
inductive FsEvent
  | record (file : String) (edit : EditRecord)
  | commit
deriving DecidableEq, Repr

/-- Whether an event is the `commitEdits` call. -/
def FsEvent.isCommit : FsEvent → Bool
  | .commit => true
  | _ => false

/-- The event trace of `runMigrations` (`devkit-migration-rule.ts`, lines
124-163): all edits are recorded while `updateProject.migrate` runs, then
`fileSystem.commitEdits()` is called. -/
def runMigrationsEvents (edits : List (String × EditRecord)) : List FsEvent :=
  (edits.map fun e => FsEvent.record e.1 e.2) ++ [FsEvent.commit]

/-- The file-system state after one `runMigrations` call: record all edits
during `migrate`, then commit once. -/
def runMigrationsFs (edits : List (String × EditRecord))
    (fs : DevkitFileSystemState) : DevkitFileSystemState :=
  DevkitFileSystem.commitEdits (migrateRecordAll edits fs)

theorem migrateRecordAll_applied (edits : List (String × EditRecord))
    (fs : DevkitFileSystemState) :
    (migrateRecordAll edits fs).applied = fs.applied := by
  induction edits generalizing fs with
  | nil => rfl
  | cons e rest ih => simp [migrateRecordAll, List.foldl_cons] at ih ⊢
                      exact ih _

theorem migrateRecordAll_pending (edits : List (String × EditRecord))
    (fs : DevkitFileSystemState) :
    (migrateRecordAll edits fs).pending = fs.pending ++ edits := by
  induction edits generalizing fs with
  | nil => simp [migrateRecordAll]
  | cons e rest ih =>
    simp only [migrateRecordAll, List.foldl_cons] at ih ⊢
    rw [ih]
    simp [DevkitFileSystem.recordEdit]

/-- C2: per tsconfig run of `runMigrations`, `commitEdits` happens exactly
once, strictly after every edit-recording event of `updateProject.migrate`
(it is the last event); while `migrate` runs nothing is applied to the file
system, and the single commit applies exactly the recorded edits in one
pass. -/
theorem runMigrations_commits_once_after_migrate (edits : List (String × EditRecord))
    (fs : DevkitFileSystemState) (hpending : fs.pending = []) :
    (runMigrationsEvents edits).countP FsEvent.isCommit = 1
    ∧ (∀ e ∈ (runMigrationsEvents edits).dropLast, e.isCommit = false)
    ∧ (runMigrationsEvents edits).getLast? = some FsEvent.commit
    ∧ (migrateRecordAll edits fs).applied = fs.applied
    ∧ (runMigrationsFs edits fs).applied = fs.applied ++ edits
    ∧ (runMigrationsFs edits fs).pending = [] := by
  refine ⟨?_, ?_, ?_, migrateRecordAll_applied edits fs, ?_, rfl⟩
  · simp [runMigrationsEvents, List.countP_append, List.countP_eq_zero, FsEvent.isCommit,
      List.countP_cons]
  · intro e he
    rw [runMigrationsEvents, List.dropLast_concat] at he
    obtain ⟨x, _, rfl⟩ := List.mem_map.1 he
    rfl
  · simp [runMigrationsEvents]
  · simp [runMigrationsFs, DevkitFileSystem.commitEdits, migrateRecordAll_applied,
      migrateRecordAll_pending, hpending]

/-- Witness for C2 at a concrete input: two edits recorded in one run
starting from an empty file system. -/
theorem runMigrations_commits_once_after_migrate_witness :
    ((runMigrationsEvents [("/a.ts", .remove 4 9), ("/a.ts", .insertRight 4 "CdkTrapFocus")]).countP
        FsEvent.isCommit = 1
      ∧ (∀ e ∈ (runMigrationsEvents
            [("/a.ts", .remove 4 9), ("/a.ts", .insertRight 4 "CdkTrapFocus")]).dropLast,
          e.isCommit = false)
      ∧ (runMigrationsEvents
          [("/a.ts", .remove 4 9), ("/a.ts", .insertRight 4 "CdkTrapFocus")]).getLast?
        = some FsEvent.commit
      ∧ (migrateRecordAll [("/a.ts", .remove 4 9), ("/a.ts", .insertRight 4 "CdkTrapFocus")]
          ⟨[], []⟩).applied = ([] : List (String × EditRecord))
      ∧ (runMigrationsFs [("/a.ts", .remove 4 9), ("/a.ts", .insertRight 4 "CdkTrapFocus")]
          ⟨[], []⟩).applied
        = [] ++ [("/a.ts", .remove 4 9), ("/a.ts", .insertRight 4 "CdkTrapFocus")]
      ∧ (runMigrationsFs [("/a.ts", .remove 4 9), ("/a.ts", .insertRight 4 "CdkTrapFocus")]
          ⟨[], []⟩).pending = []) :=
  runMigrations_commits_once_after_migrate
    [("/a.ts", .remove 4 9), ("/a.ts", .insertRight 4 "CdkTrapFocus")] ⟨[], []⟩ rfl

/-! ## `ElementSelectorsRule`
(`src/cdk/schematics/ng-update/upgrade-rules/index.ts`, element-selectors
rule).  The rule walks templates, stylesheets and string literals, finds
every occurrence of a deprecated selector and records a
`remove`/`insertRight` pair in the file's update recorder.  It never
returns new content: the visited AST node, template content and stylesheet
content are inputs only.
-/

/-- Upgrade data consumed by `ElementSelectorsRule` (the `{replace,
replaceWith}` shape of `ElementSelectorUpgradeData`; the data file
`ng-update/data/element-selectors.ts` is not part of the excerpt, its shape
is fixed by the rule's uses `selector.replace` / `selector.replaceWith`). -/
structure ElementSelectorUpgradeData where
  replace : String
  replaceWith : String
deriving DecidableEq, Repr

/-- Modelled from the spec: `findAllSubstringIndices` from
`ng-update/typescript/literal.ts` (not part of the excerpt) — the
increasing list of all character positions at which the needle occurs in
the content. -/
def findAllSubstringIndices (content needle : String) : List Nat :=
  (List.range content.length).filter fun i =>
    (content.toList.drop i).take needle.length == needle.toList

/-- The state a migration rule can reach through its visit methods: the
text contents of the project's files/resources, and the per-file update
recorders.  The visit methods return recorder updates only. -/
structure MigrationRecorderState where
  fileContents : String → String
  recorders : String → List EditRecord

/-- `ElementSelectorsRule._replaceSelector`: appends a `remove` of the old
selector and an `insertRight` of the replacement to the file's update
recorder. -/
def ElementSelectorsRule.replaceSelector (filePath : String) (start : Nat)
    (data : ElementSelectorUpgradeData) (st : MigrationRecorderState) :
    MigrationRecorderState :=
  { st with recorders := fun g =>
      if g = filePath then
        st.recorders filePath
          ++ [.remove start data.replace.length, .insertRight start data.replaceWith]
      else st.recorders g }

/-- `ElementSelectorsRule.visitTemplate`: for each data entry, every
occurrence of the deprecated selector in the template content (offset by
the template start) is recorded via `_replaceSelector`. -/
def ElementSelectorsRule.visitTemplate (data : List ElementSelectorUpgradeData)
    (template : ResolvedResource) (st : MigrationRecorderState) :
    MigrationRecorderState :=
  data.foldl (fun st selector =>
    (((findAllSubstringIndices template.content selector.replace).map
        (fun offset => template.start + offset)).foldl
      (fun st start => ElementSelectorsRule.replaceSelector template.filePath start selector st)
      st)) st

/-- `ElementSelectorsRule.visitStylesheet`: same walk over the stylesheet
content. -/
def ElementSelectorsRule.visitStylesheet (data : List ElementSelectorUpgradeData)
    (stylesheet : ResolvedResource) (st : MigrationRecorderState) :
    MigrationRecorderState :=
  data.foldl (fun st selector =>
    (((findAllSubstringIndices stylesheet.content selector.replace).map
        (fun offset => stylesheet.start + offset)).foldl
      (fun st start =>
        ElementSelectorsRule.replaceSelector stylesheet.filePath start selector st)
      st)) st

/-- A string-literal-like AST node as `_visitStringLiteralLike` consumes
it: its text (`getText()`), source file name, start offset, whether it has
a parent and whether that parent is a call expression. -/
structure StringLiteralLikeNode where
  text : String
  fileName : String
  start : Nat
  hasParent : Bool
  parentIsCallExpression : Bool
deriving DecidableEq, Repr

/-- `ElementSelectorsRule._visitStringLiteralLike` (reached from
`visitNode` for string-literal-like nodes): returns untouched unless the
parent is a call expression; otherwise records a replacement for every
occurrence in the literal text. -/
def ElementSelectorsRule.visitStringLiteralLike (data : List ElementSelectorUpgradeData)
    (node : StringLiteralLikeNode) (st : MigrationRecorderState) :
    MigrationRecorderState :=
  if node.hasParent = true ∧ node.parentIsCallExpression = false then st
  else
    data.foldl (fun st selector =>
      (((findAllSubstringIndices node.text selector.replace).map
          (fun offset => node.start + offset)).foldl
        (fun st start => ElementSelectorsRule.replaceSelector node.fileName start selector st)
        st)) st

/-- The recorder map `r'` extends `r` by appended records that are only
`remove` or `insertRight`. -/
def RecorderAppendOnlyRI (r r' : String → List EditRecord) : Prop :=
  ∀ f, ∃ new, r' f = r f ++ new ∧ ∀ e ∈ new, e.isRemoveOrInsertRight = true

theorem recorderAppendOnlyRI_refl (r : String → List EditRecord) :
    RecorderAppendOnlyRI r r :=
  fun f => ⟨[], by simp⟩

theorem recorderAppendOnlyRI_trans {r₁ r₂ r₃ : String → List EditRecord}
    (h₁ : RecorderAppendOnlyRI r₁ r₂) (h₂ : RecorderAppendOnlyRI r₂ r₃) :
    RecorderAppendOnlyRI r₁ r₃ := by
  intro f
  obtain ⟨n₁, he₁, hk₁⟩ := h₁ f
  obtain ⟨n₂, he₂, hk₂⟩ := h₂ f
  refine ⟨n₁ ++ n₂, by rw [he₂, he₁, List.append_assoc], ?_⟩
  intro e he
  rcases List.mem_append.1 he with h | h
  · exact hk₁ e h
  · exact hk₂ e h

theorem replaceSelector_frame (filePath : String) (start : Nat)
    (data : ElementSelectorUpgradeData) (st : MigrationRecorderState) :
    (ElementSelectorsRule.replaceSelector filePath start data st).fileContents
        = st.fileContents
    ∧ RecorderAppendOnlyRI st.recorders
        (ElementSelectorsRule.replaceSelector filePath start data st).recorders := by
  refine ⟨rfl, fun f => ?_⟩
  by_cases h : f = filePath
  · subst h
    exact ⟨[.remove start data.replace.length, .insertRight start data.replaceWith],
      by simp [ElementSelectorsRule.replaceSelector], by
        intro e he
        rcases List.mem_cons.1 he with rfl | he
        · rfl
        · rcases List.mem_cons.1 he with rfl | he
          · rfl
          · cases he⟩
  · exact ⟨[], by simp [ElementSelectorsRule.replaceSelector, h]⟩

/-- Folding any list of steps that each leave the file contents untouched
and only append `remove`/`insertRight` records preserves both properties. -/
theorem foldl_frame {α : Type} (step : MigrationRecorderState → α → MigrationRecorderState)
    (hstep : ∀ st x, (step st x).fileContents = st.fileContents
      ∧ RecorderAppendOnlyRI st.recorders (step st x).recorders)
    (l : List α) (st : MigrationRecorderState) :
    (l.foldl step st).fileContents = st.fileContents
    ∧ RecorderAppendOnlyRI st.recorders (l.foldl step st).recorders := by
  induction l generalizing st with
  | nil => exact ⟨rfl, recorderAppendOnlyRI_refl _⟩
  | cons x rest ih =>
    rw [List.foldl_cons]
    obtain ⟨hc, hr⟩ := hstep st x
    obtain ⟨hc', hr'⟩ := ih (step st x)
    exact ⟨hc'.trans hc, recorderAppendOnlyRI_trans hr hr'⟩

/-- C8: the visit methods of `ElementSelectorsRule` only append
`remove`/`insertRight` records to the per-file update recorders; the file
contents (AST text, template content, stylesheet content) are unchanged
when the visit returns. -/
theorem elementSelectorsRule_visit_records_only (data : List ElementSelectorUpgradeData)
    (template stylesheet : ResolvedResource) (node : StringLiteralLikeNode)
    (st : MigrationRecorderState) :
    ((ElementSelectorsRule.visitTemplate data template st).fileContents = st.fileContents
      ∧ RecorderAppendOnlyRI st.recorders
          (ElementSelectorsRule.visitTemplate data template st).recorders)
    ∧ ((ElementSelectorsRule.visitStylesheet data stylesheet st).fileContents = st.fileContents
      ∧ RecorderAppendOnlyRI st.recorders
          (ElementSelectorsRule.visitStylesheet data stylesheet st).recorders)
    ∧ ((ElementSelectorsRule.visitStringLiteralLike data node st).fileContents = st.fileContents
      ∧ RecorderAppendOnlyRI st.recorders
          (ElementSelectorsRule.visitStringLiteralLike data node st).recorders) := by
  have houter : ∀ (fileName : String) (content : String) (base : Nat)
      (st : MigrationRecorderState),
      ((data.foldl (fun st selector =>
          (((findAllSubstringIndices content selector.replace).map
              (fun offset => base + offset)).foldl
            (fun st start => ElementSelectorsRule.replaceSelector fileName start selector st)
            st)) st).fileContents = st.fileContents)
      ∧ RecorderAppendOnlyRI st.recorders
          (data.foldl (fun st selector =>
            (((findAllSubstringIndices content selector.replace).map
                (fun offset => base + offset)).foldl
              (fun st start => ElementSelectorsRule.replaceSelector fileName start selector st)
              st)) st).recorders := by
    intro fileName content base st
    refine foldl_frame _ ?_ data st
    intro st selector
    exact foldl_frame _ (fun st start => replaceSelector_frame fileName start selector st) _ st
  refine ⟨houter template.filePath template.content template.start st,
    houter stylesheet.filePath stylesheet.content stylesheet.start st, ?_⟩
  unfold ElementSelectorsRule.visitStringLiteralLike
  split
  · exact ⟨rfl, recorderAppendOnlyRI_refl _⟩
  · exact houter node.fileName node.text node.start st

/-- Witness for C8 at a concrete input: a template containing two
occurrences of a deprecated selector; the resulting recorder holds exactly
the two remove/insertRight pairs and the contents map is untouched. -/
theorem elementSelectorsRule_visit_records_only_witness :
    ((ElementSelectorsRule.visitTemplate [⟨"cdk-overlay", "cdk-connected-overlay"⟩]
        ⟨"/t.html", false, "cdk-overlay x cdk-overlay", 10⟩
        ⟨fun _ => "", fun _ => []⟩).fileContents = (fun _ => "")
      ∧ RecorderAppendOnlyRI (fun _ => [])
          (ElementSelectorsRule.visitTemplate [⟨"cdk-overlay", "cdk-connected-overlay"⟩]
            ⟨"/t.html", false, "cdk-overlay x cdk-overlay", 10⟩
            ⟨fun _ => "", fun _ => []⟩).recorders)
    ∧ (ElementSelectorsRule.visitTemplate [⟨"cdk-overlay", "cdk-connected-overlay"⟩]
        ⟨"/t.html", false, "cdk-overlay x cdk-overlay", 10⟩
        ⟨fun _ => "", fun _ => []⟩).recorders "/t.html"
      = [.remove 10 11, .insertRight 10 "cdk-connected-overlay",
         .remove 24 11, .insertRight 24 "cdk-connected-overlay"] :=
  ⟨(elementSelectorsRule_visit_records_only [⟨"cdk-overlay", "cdk-connected-overlay"⟩]
      ⟨"/t.html", false, "cdk-overlay x cdk-overlay", 10⟩
      ⟨"/t.html", false, "cdk-overlay x cdk-overlay", 10⟩
      ⟨"x", "/a.ts", 0, true, true⟩
      ⟨fun _ => "", fun _ => []⟩).1,
   by decide⟩

/-! ## Version-keyed upgrade data
(`src/cdk/schematics/ng-update/upgrade-data.ts`,
`src/cdk/schematics/ng-update/data/class-names.ts`,
`src/cdk/schematics/update-tool/target-version.ts`).
-/

/-- The target versions `ng update` can migrate to
(`update-tool/target-version.ts`). -/
inductive TargetVersion
  | V6
  | V7
  | V8
  | V9
  | V10
deriving DecidableEq, Repr

/-- A change set recorded under one pull request in a version-keyed
upgrade-data table. -/
structure ReadableChange (T : Type) where
  pr : String
  changes : List T
deriving DecidableEq, Repr

/-- A version-keyed upgrade-data table: for each target version, the
optional list of per-PR change sets recorded under that key. -/
def VersionChanges (T : Type) := TargetVersion → Option (List (ReadableChange T))

/-- Modelled from the spec: `getChangesForTarget` from
`update-tool/version-changes.ts` (not part of the excerpt) — resolves the
data portion tied to the target version by flattening the change sets
recorded under that version key (an absent key yields no changes). -/
def getChangesForTarget {T : Type} (target : TargetVersion) (data : VersionChanges T) :
    List T :=
  match data target with
  | none => []
  | some changeSets => changeSets.foldl (fun result prData => result ++ prData.changes) []

/-- The spec's reading of the table: the changes recorded under key `t`
are exactly the concatenation of the per-PR change lists stored at `t`. -/
def specChangesUnderKey {T : Type} (target : TargetVersion) (data : VersionChanges T) :
    List T :=
  (((data target).getD []).map (fun prData => prData.changes)).flatten

/-- Upgrade data for a deprecated class name (`data/class-names.ts`). -/
structure ClassNameUpgradeData where
  replace : String
  replaceWith : String
deriving DecidableEq, Repr

/-- The `classNames` version-keyed table (`data/class-names.ts`, lines
19-39): the V6 key records three pull requests' change sets; no other
version key is present. -/
def classNames : VersionChanges ClassNameUpgradeData
  | .V6 => some
      [⟨"https://github.com/angular/components/pull/10161",
        [⟨"ConnectedOverlayDirective", "CdkConnectedOverlay"⟩,
         ⟨"OverlayOrigin", "CdkOverlayOrigin"⟩]⟩,
       ⟨"https://github.com/angular/components/pull/10267",
        [⟨"ObserveContent", "CdkObserveContent"⟩]⟩,
       ⟨"https://github.com/angular/components/pull/10325",
        [⟨"FocusTrapDirective", "CdkTrapFocus"⟩]⟩]
  | _ => none

/-- The upgrade-data fields a migration rule reads (`RuleUpgradeData`),
restricted to the tables whose data files are part of the excerpt or whose
shape is fixed by the rules: deprecated class names and element
selectors. -/
structure RuleUpgradeData where
  classNames : VersionChanges ClassNameUpgradeData
  elementSelectors : VersionChanges ElementSelectorUpgradeData

/-- The fields of a `MigrationRule` that `getVersionUpgradeData` reads: the
rule's target version and its upgrade-data object. -/
structure MigrationRuleModel where
  targetVersion : TargetVersion
  upgradeData : RuleUpgradeData

/-- `getVersionUpgradeData` (`ng-update/upgrade-data.ts`, lines 68-72):
resolves the data portion for the rule's target version from the named
table of the rule's upgrade data; the data key is passed as a field
selector. -/
def getVersionUpgradeData {T : Type} (r : MigrationRuleModel)
    (dataName : RuleUpgradeData → VersionChanges T) : List T :=
  getChangesForTarget r.targetVersion (dataName r.upgradeData)

/-- `ElementSelectorsRule.data`: the change data upgrading to the rule's
target version. -/
def ElementSelectorsRule.data (r : MigrationRuleModel) : List ElementSelectorUpgradeData :=
  getVersionUpgradeData r (fun d => d.elementSelectors)

/-- `ElementSelectorsRule.ruleEnabled`: the migration rule is enabled only
if there is upgrade data. -/
def ElementSelectorsRule.ruleEnabled (r : MigrationRuleModel) : Bool :=
  (ElementSelectorsRule.data r).length != 0

theorem foldl_append_changes_eq_flatten {T : Type} (changeSets : List (ReadableChange T))
    (acc : List T) :
    changeSets.foldl (fun result prData => result ++ prData.changes) acc
      = acc ++ (changeSets.map (fun prData => prData.changes)).flatten := by
  induction changeSets generalizing acc with
  | nil => simp
  | cons c rest ih => simp [List.foldl_cons, ih (acc ++ c.changes)]

/-- C3: `getVersionUpgradeData` returns exactly the changes recorded under
the target-version key of the version-keyed table named by the data key
(shown for every table and key via the field-selector argument, and
concretely for the `classNames` table at V6 and at every other version),
and `ElementSelectorsRule` is enabled exactly when that list is
non-empty. -/
theorem getVersionUpgradeData_returns_changes_under_key :
    (∀ (T : Type) (r : MigrationRuleModel) (dataName : RuleUpgradeData → VersionChanges T),
      getVersionUpgradeData r dataName
        = specChangesUnderKey r.targetVersion (dataName r.upgradeData))
    ∧ getChangesForTarget .V6 classNames
      = [⟨"ConnectedOverlayDirective", "CdkConnectedOverlay"⟩,
         ⟨"OverlayOrigin", "CdkOverlayOrigin"⟩,
         ⟨"ObserveContent", "CdkObserveContent"⟩,
         ⟨"FocusTrapDirective", "CdkTrapFocus"⟩]
    ∧ (∀ target : TargetVersion, target ≠ .V6 → getChangesForTarget target classNames = [])
    ∧ (∀ r : MigrationRuleModel,
        ElementSelectorsRule.ruleEnabled r = true ↔ ElementSelectorsRule.data r ≠ []) := by
  refine ⟨?_, by decide, ?_, ?_⟩
  · intro T r dataName
    unfold getVersionUpgradeData getChangesForTarget specChangesUnderKey
    cases h : dataName r.upgradeData r.targetVersion with
    | none => simp
    | some changeSets => simp [foldl_append_changes_eq_flatten]
  · intro target hne
    cases target with
    | V6 => exact absurd rfl hne
    | V7 => rfl
    | V8 => rfl
    | V9 => rfl
    | V10 => rfl
  · intro r
    unfold ElementSelectorsRule.ruleEnabled
    constructor
    · intro h hnil
      rw [hnil] at h
      exact Bool.noConfusion h
    · intro h
      have : (ElementSelectorsRule.data r).length ≠ 0 :=
        fun h0 => h (List.length_eq_zero.mp h0)
      simpa using this

/-- Witness for C3 at a concrete input: the rule model targeting V6 with
the CDK tables; an element-selectors table with one entry under V6 enables
the rule. -/
theorem getVersionUpgradeData_returns_changes_under_key_witness :
    getVersionUpgradeData
        ⟨.V6, ⟨classNames, fun t => if t = .V6 then some [⟨"pr", [⟨"cdk-a", "cdk-b"⟩]⟩] else none⟩⟩
        (fun d => d.classNames)
      = specChangesUnderKey .V6 classNames
    ∧ (ElementSelectorsRule.ruleEnabled
        ⟨.V6, ⟨classNames, fun t => if t = .V6 then some [⟨"pr", [⟨"cdk-a", "cdk-b"⟩]⟩] else none⟩⟩
        = true
      ↔ ElementSelectorsRule.data
          ⟨.V6, ⟨classNames, fun t => if t = .V6 then some [⟨"pr", [⟨"cdk-a", "cdk-b"⟩]⟩] else none⟩⟩
        ≠ []) :=
  ⟨getVersionUpgradeData_returns_changes_under_key.1 ClassNameUpgradeData
      ⟨.V6, ⟨classNames, fun t => if t = .V6 then some [⟨"pr", [⟨"cdk-a", "cdk-b"⟩]⟩] else none⟩⟩
      (fun d => d.classNames),
   getVersionUpgradeData_returns_changes_under_key.2.2.2
      ⟨.V6, ⟨classNames, fun t => if t = .V6 then some [⟨"pr", [⟨"cdk-a", "cdk-b"⟩]⟩] else none⟩⟩⟩

/-! ## `MatProgressBar` (material, `src/unnamed/part_002`) and the MDC
progress bar (`src/material-experimental/mdc-progress-bar/progress-bar.ts`)

JavaScript numbers are modelled as `ℚ` plus a distinguished `NaN`
(`Option ℚ` with `none = NaN` for computed values); strings enter the
setters only through their truthiness, their `Number(...)` coercion and
their `parseFloat(...)` result, so a string is modelled by those three
observations.
-/

/-- The observations of a JavaScript string that the progress-bar setters
can make: truthiness (non-emptiness), the `parseFloat` result and the
`Number` conversion (`none` = `NaN`). -/
structure JSString where
  nonempty : Bool
  parseFloatVal : Option ℚ
  numberVal : Option ℚ
deriving DecidableEq

/-- A JavaScript value that can reach the progress-bar setters
(`ngAcceptInputType_value: number | string | null | undefined`, with `NaN`
a number). -/
inductive JSValue
  | num (x : ℚ)
  | nan
  | str (s : JSString)
  | null
  | undefined
deriving DecidableEq

/-- JavaScript truthiness of the modelled values. -/
def JSValue.truthy : JSValue → Bool
  | .num x => x != 0
  | .nan => false
  | .str s => s.nonempty
  | .null => false
  | .undefined => false

/-- `ToNumber` as applied by `Math.min`/`Math.max` (`none` = `NaN`). -/
def JSValue.toNumber : JSValue → Option ℚ
  | .num x => some x
  | .nan => none
  | .str s => s.numberVal
  | .null => some 0
  | .undefined => none

/-- `parseFloat` on the modelled values (`parseFloat` of `null`,
`undefined` and `NaN` parses their string forms and yields `NaN`). -/
def JSValue.parseFloatNum : JSValue → Option ℚ
  | .num x => some x
  | .nan => none
  | .str s => s.parseFloatVal
  | .null => none
  | .undefined => none

/-- Modelled from the spec: `coerceNumberProperty` from `cdk/coercion`
(not part of the excerpt), the "coerced(v)" of the claim: returns
`Number(value)` when both `parseFloat(value)` and `Number(value)` are
numbers, and the fallback `0` otherwise. -/
def coerceNumberProperty (v : JSValue) : ℚ :=
  match v.parseFloatNum, v.toNumber with
  | some _, some q => q
  | _, _ => 0

/-- `Math.min` with `NaN` propagation. -/
def jsMin : Option ℚ → Option ℚ → Option ℚ
  | some a, some b => some (min a b)
  | _, _ => none

/-- `Math.max` with `NaN` propagation. -/
def jsMax : Option ℚ → Option ℚ → Option ℚ
  | some a, some b => some (max a b)
  | _, _ => none

/-- `clamp(v, min = 0, max = 100) = Math.max(min, Math.min(max, v))` on a
JavaScript number (`none` = `NaN`), as defined at the bottom of both
progress-bar files. -/
def clampJS (v : Option ℚ) : Option ℚ := jsMax (some 0) (jsMin (some 100) v)

/-- `clamp` on a number known not to be `NaN`. -/
def clampQ (q : ℚ) : ℚ := max 0 (min 100 q)

/-- `q || 0` on a non-`NaN` number. -/
def jsOrZeroQ (q : ℚ) : ℚ := if q = 0 then 0 else q

/-- `v || 0` on a JavaScript value. -/
def jsOrZero (v : JSValue) : JSValue := if v.truthy then v else .num 0

/-- The material `MatProgressBar.value` setter (part_002, lines 135-142):
`this._value = clamp(coerceNumberProperty(v) || 0)`. -/
def MatProgressBar.setValue (v : JSValue) : ℚ :=
  clampQ (jsOrZeroQ (coerceNumberProperty v))

/-- The material `MatProgressBar.bufferValue` setter (part_002, line 148):
`this._bufferValue = clamp(v || 0)`. -/
def MatProgressBar.setBufferValue (v : JSValue) : Option ℚ :=
  clampJS (jsOrZero v).toNumber

/-- The MDC `MatProgressBar.value` setter (mdc-progress-bar, lines
101-104): `this._value = clamp(v || 0)`. -/
def MdcMatProgressBar.setValue (v : JSValue) : Option ℚ :=
  clampJS (jsOrZero v).toNumber

/-- The MDC `MatProgressBar.bufferValue` setter (mdc-progress-bar, lines
110-113): `this._bufferValue = clamp(v || 0)`. -/
def MdcMatProgressBar.setBufferValue (v : JSValue) : Option ℚ :=
  clampJS (jsOrZero v).toNumber

/-- The claim's formula for the stored value:
`clamp(coerced(v) || 0, 0, 100) = max(0, min(100, coerced(v) || 0))`. -/
def claimStoredValue (v : JSValue) : ℚ :=
  max 0 (min 100 (jsOrZeroQ (coerceNumberProperty v)))

/-- A numeric string: non-empty, and both `parseFloat` and `Number` yield
numbers. -/
def NumericJSString (s : JSString) : Prop :=
  s.nonempty = true ∧ s.parseFloatVal.isSome = true ∧ s.numberVal.isSome = true

/-- The claim's input domain: a number (including `NaN`), a numeric
string, `null`, or `undefined`. -/
def ClampClaimInput : JSValue → Prop
  | .str s => NumericJSString s
  | _ => True

theorem jsOrZeroQ_eq (q : ℚ) : jsOrZeroQ q = q := by
  unfold jsOrZeroQ
  split
  · rename_i h
    exact h.symm
  · rfl

theorem clampJS_some (q : ℚ) : clampJS (some q) = some (clampQ q) := rfl

theorem clampQ_nonneg (q : ℚ) : 0 ≤ clampQ q := le_max_left 0 _

theorem clampQ_le_100 (q : ℚ) : clampQ q ≤ 100 :=
  max_le (by norm_num) (min_le_left 100 q)

/-- On the claim's input domain, all four setters (material and MDC,
`value` and `bufferValue`) store the claim's clamped value. -/
theorem progressBar_setters_eq_claim (v : JSValue) (hv : ClampClaimInput v) :
    MatProgressBar.setValue v = claimStoredValue v
    ∧ MatProgressBar.setBufferValue v = some (claimStoredValue v)
    ∧ MdcMatProgressBar.setValue v = some (claimStoredValue v)
    ∧ MdcMatProgressBar.setBufferValue v = some (claimStoredValue v) := by
  have key : MatProgressBar.setValue v = claimStoredValue v
      ∧ MatProgressBar.setBufferValue v = some (claimStoredValue v) := by
    cases v with
    | num x =>
      constructor
      · rfl
      · show clampJS (jsOrZero (.num x)).toNumber = _
        unfold jsOrZero JSValue.truthy
        by_cases hx : x = 0
        · subst hx
          simp [clampJS_some, claimStoredValue, coerceNumberProperty, JSValue.parseFloatNum,
            JSValue.toNumber, jsOrZeroQ, clampQ]
        · simp only [hx, bne_iff_ne, ne_eq, not_false_eq_true, if_true]
          simp [JSValue.toNumber, clampJS_some, claimStoredValue, coerceNumberProperty,
            JSValue.parseFloatNum, jsOrZeroQ_eq, clampQ]
    | nan =>
      constructor
      · rfl
      · show clampJS (jsOrZero .nan).toNumber = _
        simp [jsOrZero, JSValue.truthy, JSValue.toNumber, clampJS_some, claimStoredValue,
          coerceNumberProperty, JSValue.parseFloatNum, jsOrZeroQ, clampQ]
    | str s =>
      obtain ⟨hne, hpf, hnum⟩ := hv
      obtain ⟨p, hp⟩ := Option.isSome_iff_exists.mp hpf
      obtain ⟨q, hq⟩ := Option.isSome_iff_exists.mp hnum
      constructor
      · show clampQ (jsOrZeroQ (coerceNumberProperty (.str s))) = _
        rfl
      · show clampJS (jsOrZero (.str s)).toNumber = _
        have htr : jsOrZero (.str s) = .str s := by
          unfold jsOrZero
          rw [show (JSValue.str s).truthy = s.nonempty from rfl, hne]
          rfl
        have hco : coerceNumberProperty (.str s) = q := by
          unfold coerceNumberProperty
          rw [show (JSValue.str s).parseFloatNum = s.parseFloatVal from rfl,
            show (JSValue.str s).toNumber = s.numberVal from rfl, hp, hq]
        rw [htr]
        show clampJS s.numberVal = _
        rw [hq, clampJS_some]
        unfold claimStoredValue
        rw [hco, jsOrZeroQ_eq]
        rfl
    | null =>
      constructor
      · rfl
      · show clampJS (jsOrZero .null).toNumber = _
        simp [jsOrZero, JSValue.truthy, JSValue.toNumber, clampJS_some, claimStoredValue,
          coerceNumberProperty, JSValue.parseFloatNum, jsOrZeroQ, clampQ]
    | undefined =>
      constructor
      · rfl
      · show clampJS (jsOrZero .undefined).toNumber = _
        simp [jsOrZero, JSValue.truthy, JSValue.toNumber, clampJS_some, claimStoredValue,
          coerceNumberProperty, JSValue.parseFloatNum, jsOrZeroQ, clampQ]
  exact ⟨key.1, key.2, key.2, key.2⟩

/-- An assignment to one of the two clamped inputs of a progress bar. -/
inductive ProgressBarAssignment
  | setValue (v : JSValue)
  | setBufferValue (v : JSValue)

/-- The raw input value of an assignment. -/
def ProgressBarAssignment.input : ProgressBarAssignment → JSValue
  | .setValue v => v
  | .setBufferValue v => v

/-- Stored state of the material `MatProgressBar` (`_value` can never be
`NaN` because the value setter coerces; `_bufferValue` can in general). -/
structure MatProgressBarState where
  value : ℚ
  bufferValue : Option ℚ
deriving DecidableEq

/-- Initial material state: both fields default to zero. -/
def MatProgressBar.initial : MatProgressBarState := ⟨0, some 0⟩

/-- Effect of one input assignment on the material state. -/
def MatProgressBar.applyAssignment (st : MatProgressBarState) :
    ProgressBarAssignment → MatProgressBarState
  | .setValue v => { st with value := MatProgressBar.setValue v }
  | .setBufferValue v => { st with bufferValue := MatProgressBar.setBufferValue v }

/-- Stored state of the MDC `MatProgressBar`. -/
structure MdcProgressBarState where
  value : Option ℚ
  bufferValue : Option ℚ
deriving DecidableEq

/-- Initial MDC state: both fields default to zero. -/
def MdcMatProgressBar.initial : MdcProgressBarState := ⟨some 0, some 0⟩

/-- Effect of one input assignment on the MDC state. -/
def MdcMatProgressBar.applyAssignment (st : MdcProgressBarState) :
    ProgressBarAssignment → MdcProgressBarState
  | .setValue v => { st with value := MdcMatProgressBar.setValue v }
  | .setBufferValue v => { st with bufferValue := MdcMatProgressBar.setBufferValue v }

/-- The invariant `0 <= value <= 100` and `0 <= bufferValue <= 100` for
the material state. -/
def MatStateInRange (st : MatProgressBarState) : Prop :=
  (0 ≤ st.value ∧ st.value ≤ 100)
    ∧ ∃ q, st.bufferValue = some q ∧ 0 ≤ q ∧ q ≤ 100

/-- The same invariant for the MDC state. -/
def MdcStateInRange (st : MdcProgressBarState) : Prop :=
  (∃ q, st.value = some q ∧ 0 ≤ q ∧ q ≤ 100)
    ∧ ∃ q, st.bufferValue = some q ∧ 0 ≤ q ∧ q ≤ 100

theorem claimStoredValue_nonneg (v : JSValue) : 0 ≤ claimStoredValue v :=
  le_max_left 0 _

theorem claimStoredValue_le_100 (v : JSValue) : claimStoredValue v ≤ 100 :=
  max_le (by norm_num) (min_le_left 100 _)

theorem mat_foldl_in_range (assignments : List ProgressBarAssignment)
    (hall : ∀ a ∈ assignments, ClampClaimInput a.input)
    (st : MatProgressBarState) (hst : MatStateInRange st) :
    MatStateInRange (assignments.foldl MatProgressBar.applyAssignment st) := by
  induction assignments generalizing st with
  | nil => exact hst
  | cons a rest ih =>
    rw [List.foldl_cons]
    refine ih (fun b hb => hall b (List.mem_cons_of_mem a hb)) _ ?_
    have ha := hall a (List.mem_cons_self a rest)
    cases a with
    | setValue v =>
      have heq := (progressBar_setters_eq_claim v ha).1
      exact ⟨by
        rw [show (MatProgressBar.applyAssignment st (.setValue v)).value
              = MatProgressBar.setValue v from rfl, heq]
        exact ⟨claimStoredValue_nonneg v, claimStoredValue_le_100 v⟩,
        hst.2⟩
    | setBufferValue v =>
      have heq := (progressBar_setters_eq_claim v ha).2.1
      exact ⟨hst.1,
        ⟨claimStoredValue v, by
          rw [show (MatProgressBar.applyAssignment st (.setBufferValue v)).bufferValue
            = MatProgressBar.setBufferValue v from rfl, heq],
          claimStoredValue_nonneg v, claimStoredValue_le_100 v⟩⟩

theorem mdc_foldl_in_range (assignments : List ProgressBarAssignment)
    (hall : ∀ a ∈ assignments, ClampClaimInput a.input)
    (st : MdcProgressBarState) (hst : MdcStateInRange st) :
    MdcStateInRange (assignments.foldl MdcMatProgressBar.applyAssignment st) := by
  induction assignments generalizing st with
  | nil => exact hst
  | cons a rest ih =>
    rw [List.foldl_cons]
    refine ih (fun b hb => hall b (List.mem_cons_of_mem a hb)) _ ?_
    have ha := hall a (List.mem_cons_self a rest)
    cases a with
    | setValue v =>
      have heq := (progressBar_setters_eq_claim v ha).2.2.1
      exact ⟨⟨claimStoredValue v, by
          rw [show (MdcMatProgressBar.applyAssignment st (.setValue v)).value
            = MdcMatProgressBar.setValue v from rfl, heq],
          claimStoredValue_nonneg v, claimStoredValue_le_100 v⟩,
        hst.2⟩
    | setBufferValue v =>
      have heq := (progressBar_setters_eq_claim v ha).2.2.2
      exact ⟨hst.1,
        ⟨claimStoredValue v, by
          rw [show (MdcMatProgressBar.applyAssignment st (.setBufferValue v)).bufferValue
            = MdcMatProgressBar.setBufferValue v from rfl, heq],
          claimStoredValue_nonneg v, claimStoredValue_le_100 v⟩⟩

/-- C4: for every input in the claim's domain (number, numeric string,
`null`, `undefined`), the `value` and `bufferValue` setters of both the
material and the MDC progress bar store
`clamp(coerced(v) || 0, 0, 100) = max(0, min(100, coerced(v) || 0))`,
which lies in `[0, 100]`; hence after any sequence of such assignments
both stored fields satisfy `0 <= value <= 100` and
`0 <= bufferValue <= 100` in both components. -/
theorem progressBar_inputs_clamped :
    (∀ v : JSValue, ClampClaimInput v →
      MatProgressBar.setValue v = claimStoredValue v
      ∧ MatProgressBar.setBufferValue v = some (claimStoredValue v)
      ∧ MdcMatProgressBar.setValue v = some (claimStoredValue v)
      ∧ MdcMatProgressBar.setBufferValue v = some (claimStoredValue v)
      ∧ 0 ≤ claimStoredValue v ∧ claimStoredValue v ≤ 100)
    ∧ ∀ assignments : List ProgressBarAssignment,
        (∀ a ∈ assignments, ClampClaimInput a.input) →
        MatStateInRange (assignments.foldl MatProgressBar.applyAssignment
          MatProgressBar.initial)
        ∧ MdcStateInRange (assignments.foldl MdcMatProgressBar.applyAssignment
          MdcMatProgressBar.initial) := by
  constructor
  · intro v hv
    obtain ⟨h₁, h₂, h₃, h₄⟩ := progressBar_setters_eq_claim v hv
    exact ⟨h₁, h₂, h₃, h₄, claimStoredValue_nonneg v, claimStoredValue_le_100 v⟩
  · intro assignments hall
    have hmat : MatStateInRange MatProgressBar.initial :=
      ⟨⟨le_refl 0, by norm_num [MatProgressBar.initial]⟩, ⟨0, rfl, le_refl 0, by norm_num⟩⟩
    have hmdc : MdcStateInRange MdcMatProgressBar.initial :=
      ⟨⟨0, rfl, le_refl 0, by norm_num⟩, ⟨0, rfl, le_refl 0, by norm_num⟩⟩
    exact ⟨mat_foldl_in_range assignments hall _ hmat,
      mdc_foldl_in_range assignments hall _ hmdc⟩

/-- Witness for C4 at concrete inputs: the number 150 is clamped to 100, a
numeric string "-3" to 0, and the two-assignment sequence leaves both
progress bars in range. -/
theorem progressBar_inputs_clamped_witness :
    (ClampClaimInput (.num 150)
      ∧ MatProgressBar.setValue (.num 150) = claimStoredValue (.num 150)
      ∧ claimStoredValue (.num 150) = 100)
    ∧ (ClampClaimInput (.str ⟨true, some (-3), some (-3)⟩)
      ∧ MatProgressBar.setBufferValue (.str ⟨true, some (-3), some (-3)⟩)
        = some (claimStoredValue (.str ⟨true, some (-3), some (-3)⟩))
      ∧ claimStoredValue (.str ⟨true, some (-3), some (-3)⟩) = 0)
    ∧ MatStateInRange
        ([ProgressBarAssignment.setValue (.num 150),
          ProgressBarAssignment.setBufferValue (.str ⟨true, some (-3), some (-3)⟩)].foldl
          MatProgressBar.applyAssignment MatProgressBar.initial) :=
  ⟨⟨trivial,
    ((progressBar_inputs_clamped.1 (.num 150) trivial).1),
    by norm_num [claimStoredValue, coerceNumberProperty, JSValue.parseFloatNum,
      JSValue.toNumber, jsOrZeroQ]⟩,
   ⟨⟨rfl, rfl, rfl⟩,
    ((progressBar_inputs_clamped.1 (.str ⟨true, some (-3), some (-3)⟩) ⟨rfl, rfl, rfl⟩).2.1),
    by norm_num [claimStoredValue, coerceNumberProperty, JSValue.parseFloatNum,
      JSValue.toNumber, jsOrZeroQ]⟩,
   (progressBar_inputs_clamped.2
      [ProgressBarAssignment.setValue (.num 150),
       ProgressBarAssignment.setBufferValue (.str ⟨true, some (-3), some (-3)⟩)]
      (by
        intro a ha
        rcases List.mem_cons.1 ha with rfl | ha
        · exact trivial
        · rcases List.mem_cons.1 ha with rfl | ha
          · exact ⟨rfl, rfl, rfl⟩
          · cases ha)).1⟩

/-! ## Progress-bar host bindings (accessibility attributes)

Both progress-bar components declare the same `host` metadata:
static `role`, `aria-valuemin`, `aria-valuemax` attributes, the bound
`[attr.mode]`, and
`'[attr.aria-valuenow]': '(mode === "indeterminate" || mode === "query") ? null : value'`.
A `null` binding value removes the attribute (`none`).
-/

/-- The four progress-bar modes. -/
inductive ProgressBarMode
  | determinate
  | indeterminate
  | buffer
  | query
deriving DecidableEq, Repr

/-- The string a mode renders as in an attribute binding. -/
def ProgressBarMode.attrString : ProgressBarMode → String
  | .determinate => "determinate"
  | .indeterminate => "indeterminate"
  | .buffer => "buffer"
  | .query => "query"

/-- Static host attribute `aria-valuemin` of the material progress bar. -/
def MatProgressBar.hostAriaValuemin : String := "0"

/-- Static host attribute `aria-valuemax` of the material progress bar. -/
def MatProgressBar.hostAriaValuemax : String := "100"

/-- Host binding `[attr.mode]` of the material progress bar. -/
def MatProgressBar.hostModeAttr (mode : ProgressBarMode) : String :=
  mode.attrString

/-- Host binding `[attr.aria-valuenow]` of the material progress bar:
`(mode === "indeterminate" || mode === "query") ? null : value`. -/
def MatProgressBar.hostAriaValuenow (mode : ProgressBarMode) (value : ℚ) : Option ℚ :=
  if mode = .indeterminate ∨ mode = .query then none else some value

/-- Static host attribute `aria-valuemin` of the MDC progress bar. -/
def MdcMatProgressBar.hostAriaValuemin : String := "0"

/-- Static host attribute `aria-valuemax` of the MDC progress bar. -/
def MdcMatProgressBar.hostAriaValuemax : String := "100"

/-- Host binding `[attr.mode]` of the MDC progress bar. -/
def MdcMatProgressBar.hostModeAttr (mode : ProgressBarMode) : String :=
  mode.attrString

/-- Host binding `[attr.aria-valuenow]` of the MDC progress bar. -/
def MdcMatProgressBar.hostAriaValuenow (mode : ProgressBarMode) (value : ℚ) : Option ℚ :=
  if mode = .indeterminate ∨ mode = .query then none else some value

/-- C5: for every progress-bar state, the host mirrors `aria-valuemin = "0"`,
`aria-valuemax = "100"`, the `mode` attribute equals the mode property, and
`aria-valuenow` equals the current value exactly in the `determinate` and
`buffer` modes and is absent exactly in the `indeterminate` and `query`
modes — in both the material and the MDC progress bar. -/
theorem progressBar_host_mirrors_state (mode : ProgressBarMode) (value : ℚ) :
    MatProgressBar.hostAriaValuemin = "0"
    ∧ MatProgressBar.hostAriaValuemax = "100"
    ∧ MatProgressBar.hostModeAttr mode = mode.attrString
    ∧ (MatProgressBar.hostAriaValuenow mode value = some value
        ↔ (mode = .determinate ∨ mode = .buffer))
    ∧ (MatProgressBar.hostAriaValuenow mode value = none
        ↔ (mode = .indeterminate ∨ mode = .query))
    ∧ MdcMatProgressBar.hostAriaValuemin = "0"
    ∧ MdcMatProgressBar.hostAriaValuemax = "100"
    ∧ MdcMatProgressBar.hostModeAttr mode = mode.attrString
    ∧ (MdcMatProgressBar.hostAriaValuenow mode value = some value
        ↔ (mode = .determinate ∨ mode = .buffer))
    ∧ (MdcMatProgressBar.hostAriaValuenow mode value = none
        ↔ (mode = .indeterminate ∨ mode = .query)) := by
  refine ⟨rfl, rfl, rfl, ?_, ?_, rfl, rfl, rfl, ?_, ?_⟩ <;>
    cases mode <;>
      simp [MatProgressBar.hostAriaValuenow, MdcMatProgressBar.hostAriaValuenow]

/-! ## `TestbedHarnessEnvironment.forceStabilize` (`src/unnamed/part_004`) -/

/-- The state of a `TestbedHarnessEnvironment` relevant to
`forceStabilize`: the `_destroyed` flag (set by the fixture's `onDestroy`
callback) and the number of `detectChanges` rounds the fixture has run. -/
structure TestbedEnvState where
  destroyed : Bool
  detectChangesRuns : Nat
deriving DecidableEq, Repr

/-- A freshly constructed environment: `_destroyed = false`. -/
def TestbedHarnessEnvironment.make (detectChangesRuns : Nat) : TestbedEnvState :=
  { destroyed := false, detectChangesRuns := detectChangesRuns }

/-- The fixture's `onDestroy` callback registered by the constructor:
sets `_destroyed`. -/
def TestbedHarnessEnvironment.destroyFixture (st : TestbedEnvState) : TestbedEnvState :=
  { st with destroyed := true }

/-- `forceStabilize` (part_004, lines 81-88): throws the descriptive error
when the fixture has been destroyed; otherwise runs `detectChanges` and
awaits `whenStable`, resolving normally. -/
def TestbedHarnessEnvironment.forceStabilize (st : TestbedEnvState) :
    Except String TestbedEnvState :=
  if st.destroyed = true then
    .error "Harness is attempting to use a fixture that has already been destroyed."
  else
    .ok { st with detectChangesRuns := st.detectChangesRuns + 1 }

/-- C7: `forceStabilize` throws an `Error` with exactly the message
"Harness is attempting to use a fixture that has already been destroyed."
iff the environment's fixture has been destroyed; otherwise it runs one
round of change detection and resolves without error.  A fresh environment
is not destroyed, and destroying the fixture makes every later
`forceStabilize` throw. -/
theorem forceStabilize_throws_iff_destroyed (st : TestbedEnvState) (n : Nat) :
    (TestbedHarnessEnvironment.forceStabilize st
        = .error "Harness is attempting to use a fixture that has already been destroyed."
      ↔ st.destroyed = true)
    ∧ (st.destroyed = false →
        TestbedHarnessEnvironment.forceStabilize st
          = .ok { st with detectChangesRuns := st.detectChangesRuns + 1 })
    ∧ (TestbedHarnessEnvironment.make n).destroyed = false
    ∧ ∀ st' : TestbedEnvState,
        TestbedHarnessEnvironment.forceStabilize
            (TestbedHarnessEnvironment.destroyFixture st')
          = .error "Harness is attempting to use a fixture that has already been destroyed." := by
  refine ⟨?_, ?_, rfl, fun st' => rfl⟩
  · unfold TestbedHarnessEnvironment.forceStabilize
    cases h : st.destroyed <;> simp [h]
  · intro h
    unfold TestbedHarnessEnvironment.forceStabilize
    rw [h]
    rfl

/-- Witness for C7 at a concrete input: a fresh environment stabilizes and
counts one change-detection round; after destroying it, the call errors
with the descriptive message. -/
theorem forceStabilize_throws_iff_destroyed_witness :
    ((TestbedHarnessEnvironment.forceStabilize (TestbedHarnessEnvironment.make 0)
        = .error "Harness is attempting to use a fixture that has already been destroyed."
      ↔ (TestbedHarnessEnvironment.make 0).destroyed = true)
    ∧ ((TestbedHarnessEnvironment.make 0).destroyed = false →
        TestbedHarnessEnvironment.forceStabilize (TestbedHarnessEnvironment.make 0)
          = .ok ⟨false, 1⟩)
    ∧ (TestbedHarnessEnvironment.make 0).destroyed = false
    ∧ ∀ st' : TestbedEnvState,
        TestbedHarnessEnvironment.forceStabilize
            (TestbedHarnessEnvironment.destroyFixture st')
          = .error "Harness is attempting to use a fixture that has already been destroyed.") :=
  forceStabilize_throws_iff_destroyed (TestbedHarnessEnvironment.make 0) 0

/-! ## `OverlayMouseClickDispatcher` (`src/unnamed/part_005`) -/

/-- A `ClientRect` as returned by `getBoundingClientRect`. -/
structure JsClientRect where
  left : ℚ
  right : ℚ
  top : ℚ
  bottom : ℚ
deriving DecidableEq, Repr

/-- An attached overlay as the click listener sees it: its element's
bounding rectangle and its `detachOnOutsideClick` config flag. -/
structure AttachedOverlay where
  rect : JsClientRect
  detachOnOutsideClick : Bool
deriving DecidableEq, Repr

/-- The `isOutsideClick` expression of `_clickListener` (part_005, lines
84-86): `clientX < left && right < clientX && clientY < top && bottom <
clientY`. -/
def isOutsideClick (rect : JsClientRect) (clientX clientY : ℚ) : Bool :=
  decide (clientX < rect.left) && decide (rect.right < clientX)
    && decide (clientY < rect.top) && decide (rect.bottom < clientY)

/-- The `for (let i = overlays.length - 1; i > -1; i--)` loop body of
`_clickListener` over the overlays from last-attached to first: an
outside click detaches the overlay when configured and continues;
otherwise the listener returns.  The result lists the overlays on which
`detach()` was called, in call order. -/
def OverlayMouseClickDispatcher.clickLoop (clientX clientY : ℚ) :
    List AttachedOverlay → List AttachedOverlay
  | [] => []
  | overlayRef :: rest =>
    if isOutsideClick overlayRef.rect clientX clientY then
      (if overlayRef.detachOnOutsideClick then [overlayRef] else [])
        ++ OverlayMouseClickDispatcher.clickLoop clientX clientY rest
    else []

/-- `_clickListener`: iterates the attached overlays in reverse attachment
order. -/
def OverlayMouseClickDispatcher.clickListener (attachedOverlays : List AttachedOverlay)
    (clientX clientY : ℚ) : List AttachedOverlay :=
  OverlayMouseClickDispatcher.clickLoop clientX clientY attachedOverlays.reverse

/-- A rectangle with `left <= right` and `top <= bottom`. -/
def WellFormedRect (rect : JsClientRect) : Prop :=
  rect.left ≤ rect.right ∧ rect.top ≤ rect.bottom

/-- C9: for a well-formed bounding rectangle the `isOutsideClick`
conjunction is unsatisfiable (it demands `clientX < left` and
`right < clientX` at once), so for every click and every list of attached
overlays with well-formed rectangles the dispatcher detaches nothing,
regardless of any `detachOnOutsideClick` setting. -/
theorem clickListener_never_detaches (attachedOverlays : List AttachedOverlay)
    (clientX clientY : ℚ)
    (hwf : ∀ ov ∈ attachedOverlays, WellFormedRect ov.rect) :
    (∀ ov ∈ attachedOverlays, isOutsideClick ov.rect clientX clientY = false)
    ∧ OverlayMouseClickDispatcher.clickListener attachedOverlays clientX clientY = [] := by
  have hfalse : ∀ ov ∈ attachedOverlays, isOutsideClick ov.rect clientX clientY = false := by
    intro ov hov
    obtain ⟨hlr, _⟩ := hwf ov hov
    unfold isOutsideClick
    by_cases h₁ : clientX < ov.rect.left
    · by_cases h₂ : ov.rect.right < clientX
      · exact absurd (lt_trans h₁ (lt_of_le_of_lt hlr h₂)) (lt_irrefl clientX)
      · simp [h₂]
    · simp [h₁]
  refine ⟨hfalse, ?_⟩
  unfold OverlayMouseClickDispatcher.clickListener
  cases hrev : attachedOverlays.reverse with
  | nil => rfl
  | cons ov rest =>
    have hov : ov ∈ attachedOverlays := by
      rw [← List.mem_reverse, hrev]
      exact List.mem_cons_self ov rest
    unfold OverlayMouseClickDispatcher.clickLoop
    rw [hfalse ov hov]
    rfl

/-- Witness for C9 at a concrete input: a click at (200, 200), far outside
a 10x10 overlay at the origin that asks to be detached on outside clicks —
yet `isOutsideClick` is false and nothing is detached. -/
theorem clickListener_never_detaches_witness :
    (∀ ov ∈ [AttachedOverlay.mk ⟨0, 10, 0, 10⟩ true],
      isOutsideClick ov.rect 200 200 = false)
    ∧ OverlayMouseClickDispatcher.clickListener [AttachedOverlay.mk ⟨0, 10, 0, 10⟩ true]
        200 200 = [] :=
  clickListener_never_detaches [AttachedOverlay.mk ⟨0, 10, 0, 10⟩ true] 200 200
    (by
      intro ov hov
      rcases List.mem_cons.1 hov with rfl | hov
      · exact ⟨by norm_num, by norm_num⟩
      · cases hov)

/-- Witness for C5 at a concrete state: determinate mode at value 42
mirrors `aria-valuenow = 42`. -/
theorem progressBar_host_mirrors_state_witness :
    MatProgressBar.hostAriaValuemin = "0"
    ∧ MatProgressBar.hostAriaValuemax = "100"
    ∧ MatProgressBar.hostModeAttr .determinate = ProgressBarMode.attrString .determinate
    ∧ (MatProgressBar.hostAriaValuenow .determinate 42 = some 42
        ↔ (ProgressBarMode.determinate = .determinate ∨ ProgressBarMode.determinate = .buffer))
    ∧ (MatProgressBar.hostAriaValuenow .determinate 42 = none
        ↔ (ProgressBarMode.determinate = .indeterminate
            ∨ ProgressBarMode.determinate = .query))
    ∧ MdcMatProgressBar.hostAriaValuemin = "0"
    ∧ MdcMatProgressBar.hostAriaValuemax = "100"
    ∧ MdcMatProgressBar.hostModeAttr .determinate = ProgressBarMode.attrString .determinate
    ∧ (MdcMatProgressBar.hostAriaValuenow .determinate 42 = some 42
        ↔ (ProgressBarMode.determinate = .determinate ∨ ProgressBarMode.determinate = .buffer))
    ∧ (MdcMatProgressBar.hostAriaValuenow .determinate 42 = none
        ↔ (ProgressBarMode.determinate = .indeterminate
            ∨ ProgressBarMode.determinate = .query)) :=
  progressBar_host_mirrors_state .determinate 42

/-- Witness for C10 at a concrete input: the call without the argument
visits the source file and then fails (`result = none`, no warnings); the
call with an empty array returns normally. -/
theorem migrate_throws_without_additionalStylesheetPaths_witness :
    ((UpdateProject.migrate id ⟨["/a.ts"], [], []⟩ [] [] none).result = none
      ∧ (UpdateProject.migrate id ⟨["/a.ts"], [], []⟩ [] [] none).visits
        = (processItems (migratePhaseItems id ⟨["/a.ts"], [], []⟩) []).2
      ∧ (UpdateProject.migrate id ⟨["/a.ts"], [], []⟩ [] [] none).warnings = []
      ∧ ∀ paths : List String,
          (UpdateProject.migrate id ⟨["/a.ts"], [], []⟩ [] [] (some paths)).result.isSome
            = true)
    ∧ (UpdateProject.migrate id ⟨["/a.ts"], [], []⟩ [] [] none).visits
      = [⟨"/a.ts", false⟩] :=
  ⟨migrate_throws_without_additionalStylesheetPaths id ⟨["/a.ts"], [], []⟩ [] [],
   by decide⟩
